import Mathlib

/-!
Verification of the ProcureSmart backend engine (`Backend/predict.py`).

The Python module keeps three in-memory pandas tables (materials, price
history, vendor offers) plus a list of reminders, and exposes:
`initialize_data_from_csv`, `get_materials`, `get_price_prediction`,
`get_vendor_recommendation`, `check_requirement`, `get_system_alerts`.

Modelling conventions used throughout this shallow embedding:
* calendar dates and Unix timestamps are integers (`ℤ`, day numbers resp.
  seconds); the source compares ISO `YYYY-MM-DD` strings, whose
  lexicographic order agrees with the chronological order modelled here;
* numeric cell values are exact rationals (`ℚ`); `float` rounding noise is
  outside the model, and `round(x, 2)` is modelled as exact rounding of a
  rational to a multiple of 1/100;
* a CSV cell that fails `pd.to_numeric(..., errors="coerce")` or
  `pd.to_datetime(..., errors="coerce")` is an `Option` that is `none`
  (price rows carry `Option` fields because `get_price_prediction`
  performs this coercion; the vendor table is modelled with already
  numeric fields, i.e. CSV columns of numeric dtype, under which the
  `to_numeric`/`dropna` pass of `get_vendor_recommendation` and the raw
  comparisons of `check_requirement` are well defined);
* `np.std` is the population standard deviation, modelled as the real
  square root of the rational population variance.
-/

namespace ProcureSmart

/-- A row of the materials table. `name` is `none` when the `name` column is
absent from the CSV (the source checks column presence; columns are uniform
across rows, which the row-wise `Option` models). -/
structure MaterialRow where
  material_id : String
  name : Option String
deriving DecidableEq

/-- A row of the price-history table, before numeric/date coercion:
`date`/`price` are `none` when the raw cell does not parse. -/
structure PriceRow where
  material_id : String
  date : Option ℤ
  price : Option ℚ
deriving DecidableEq

/-- A row of the vendor-offers table with numeric columns already parsed. -/
structure Vendor where
  material_id : String
  vendor_id : String
  reliability_score : ℚ
  delivery_days : ℚ
  price_per_unit : ℚ
deriving DecidableEq

/-- Caller-supplied ranking weights (`weights` dict of the source). -/
structure Weights where
  price : ℚ
  delivery : ℚ
  reliability : ℚ
deriving DecidableEq

/-- A vendor row extended with the normalisation columns `rel_norm`,
`del_norm`, `price_norm`, `final_score` added by
`get_vendor_recommendation`. -/
structure ScoredVendor where
  v : Vendor
  rel_norm : ℚ
  del_norm : ℚ
  price_norm : ℚ
  final_score : ℚ
deriving DecidableEq

/-- The `score_breakdown` dict of `get_vendor_recommendation`. -/
structure ScoreBreakdown where
  reliability : ℚ
  delivery : ℚ
  price : ℚ
deriving DecidableEq

/-- A reminder record as appended to `SYSTEM_REMINDERS`. -/
structure Reminder where
  id : String
  material_id : String
  quantity : ℤ
  deadline : ℤ
  reminder_date : ℤ
  assigned_vendor : String
deriving DecidableEq

/-- An alert as emitted by `get_system_alerts`. -/
structure Alert where
  id : String
  message : String
deriving DecidableEq

/-- A procurement requirement (`requirement` dict of `check_requirement`). -/
structure Requirement where
  material_id : String
  quantity : ℤ
  deadline : ℤ
deriving DecidableEq

/-- The `vendor_details` block of a `check_requirement` response. -/
structure VendorDetails where
  vendor_id : String
  material_id : String
  quantity : ℤ
  price_per_unit : ℚ
  total_price : ℚ
  delivery_days : ℤ
  is_feasible : Bool
deriving DecidableEq

/-- The structured outcome of `check_requirement` (its `status`/`title`
taxonomy; the free-text messages are presentation only). -/
inductive CheckOutcome where
  | invalidDeadline
  | noSuppliers
  | deadlineUnmet (d : VendorDetails)
  | feasible (d : VendorDetails)
deriving DecidableEq

/-- `pandas.Series.max` on a nonempty rational column (the `[]` case is a
junk value, never reached by the source, which checks emptiness first). -/
def listMaxQ : List ℚ → ℚ
  | [] => 0
  | x :: xs => xs.foldl max x

/-- `pandas.Series.min` on a nonempty integer column. -/
def listMinZ : List ℤ → ℤ
  | [] => 0
  | x :: xs => xs.foldl min x

/-- `pandas.Series.max` on a nonempty integer column. -/
def listMaxZ : List ℤ → ℤ
  | [] => 0
  | x :: xs => xs.foldl max x

/-- `df.loc[col.idxmax()]` on a nonempty frame `x :: xs`: the first row
attaining the maximum of `f` (the accumulator is replaced only on a
strictly larger value, as in `numpy.argmax`). -/
def firstMaxBy {α : Type} (f : α → ℚ) (x : α) (xs : List α) : α :=
  xs.foldl (fun b y => if f b < f y then y else b) x

/-- `df.loc[col.idxmin()]` on a nonempty frame `x :: xs`: the first row
attaining the minimum of `f`. -/
def firstMinBy {α : Type} (f : α → ℚ) (x : α) (xs : List α) : α :=
  xs.foldl (fun b y => if f y < f b then y else b) x

/-- Python `int(...)` on a rational: truncation toward zero. -/
def pyInt (q : ℚ) : ℤ := if q < 0 then ⌈q⌉ else ⌊q⌋

/-- Python `round(x, 2)` modelled as exact rounding to a multiple of
`1/100` (ties are irrelevant to every claim below). -/
def round2 (q : ℚ) : ℚ := ((round (q * 100) : ℤ) : ℚ) / 100

/-- The same two-decimal rounding on the reals (used for the confidence
bounds, which involve a real square root). -/
noncomputable def round2R (x : ℝ) : ℝ := ((round (x * 100) : ℤ) : ℝ) / 100

/-- Slope of the ordinary-least-squares line fitted by
`LinearRegression().fit(X, y)`. On degenerate data (all abscissas equal)
the denominator is zero and the quotient is `0`, which agrees with the
minimum-norm solution sklearn's SVD-based solver returns there. -/
def olsSlope (xs ys : List ℚ) : ℚ :=
  let n : ℚ := xs.length
  let sx := xs.sum
  let sy := ys.sum
  let sxy := ((xs.zip ys).map fun p => p.1 * p.2).sum
  let sxx := (xs.map fun x => x * x).sum
  (n * sxy - sx * sy) / (n * sxx - sx * sx)

/-- Intercept of the fitted ordinary-least-squares line. -/
def olsIntercept (xs ys : List ℚ) : ℚ :=
  (ys.sum - olsSlope xs ys * xs.sum) / (xs.length : ℚ)

/-- Population variance of a list of rationals (`np.std(y) ** 2`). -/
def popVar (ys : List ℚ) : ℚ :=
  let n : ℚ := ys.length
  let m := ys.sum / n
  ((ys.map fun y => (y - m) * (y - m)).sum) / n

/-- `np.std(y)`: the population standard deviation. -/
noncomputable def stdDev (ys : List ℚ) : ℝ := Real.sqrt ((popVar ys : ℚ) : ℝ)

/-- Python `str.lower()` as per-character ASCII lowering (the ids at hand
are ASCII; this agrees with `String.toLower`, stated character-wise so
concrete instances evaluate). -/
def lowerStr (s : String) : String := ⟨s.data.map Char.toLower⟩

/-- The case-insensitive material-id comparison
`col.astype(str).str.lower() == str(material_id).lower()`. -/
def matchesMaterial (mid : String) (rowMid : String) : Bool :=
  lowerStr rowMid == lowerStr mid

/-- The row selection `vendors_df[vendors_df['material_id'] ... == mid]`. -/
def vendorCandidates (mid : String) (vendors : List Vendor) : List Vendor :=
  vendors.filter fun v => matchesMaterial mid v.material_id

/-- Lines 83-86 of the source: add the `rel_norm`, `del_norm`,
`price_norm` and `final_score` columns to a candidate frame. -/
def scoreVendors (w : Weights) (df : List Vendor) : List ScoredVendor :=
  let maxDel := listMaxQ (df.map fun v => v.delivery_days)
  let maxPr := listMaxQ (df.map fun v => v.price_per_unit)
  df.map fun v =>
    let rn := v.reliability_score / 5
    let dn := if 0 < maxDel then 1 - v.delivery_days / maxDel else 0
    let pn := if 0 < maxPr then 1 - v.price_per_unit / maxPr else 0
    { v := v
      rel_norm := rn
      del_norm := dn
      price_norm := pn
      final_score := rn * w.reliability + dn * w.delivery + pn * w.price }

/-- The comparison `sort_values` sorts by: ascending `final_score`. -/
def scoreLE (a b : ScoredVendor) : Prop := a.final_score ≤ b.final_score

instance : DecidableRel scoreLE :=
  fun a b => inferInstanceAs (Decidable (a.final_score ≤ b.final_score))

instance : IsTotal ScoredVendor scoreLE :=
  ⟨fun a b => le_total a.final_score b.final_score⟩

instance : IsTrans ScoredVendor scoreLE :=
  ⟨fun _ _ _ h1 h2 => le_trans h1 h2⟩

/-- `df.sort_values(by='final_score', ascending=False)` with the default
`kind='quicksort'`: pandas' `nargsort` computes an ascending argsort of
the key (stable for the small frames at hand, where numpy's introsort is
an insertion sort) and then reverses the permutation. -/
def sortValuesDescByScore (df : List ScoredVendor) : List ScoredVendor :=
  (List.insertionSort scoreLE df).reverse

/-- `get_vendor_recommendation` (lines 75-100). The typed vendor table
makes the required-column check and the `to_numeric`/`dropna` pass
identities, so the two emptiness checks of the source coincide; `none`
models the `(None, [], {})` return. The JSON-shaping float conversions of
the `best_vendor_dict` are transport concerns and the selected scored row
is returned as is. -/
def get_vendor_recommendation (mid : String) (w : Weights) (vendors : List Vendor) :
    Option (ScoredVendor × List ScoredVendor × ScoreBreakdown) :=
  match scoreVendors w (vendorCandidates mid vendors) with
  | [] => none
  | s :: ss =>
    let best := firstMaxBy (fun t => t.final_score) s ss
    some (best, sortValuesDescByScore (s :: ss),
      { reliability := best.rel_norm * w.reliability
        delivery := best.del_norm * w.delivery
        price := best.price_norm * w.price })

/-- The coercion-and-drop pass of `get_price_prediction` (lines 57-59):
`to_numeric`/`to_datetime` with `errors="coerce"` followed by
`dropna(subset=["price", "date"])`. -/
def coercePoints (rows : List PriceRow) : List (ℤ × ℚ) :=
  rows.filterMap fun r =>
    match r.date, r.price with
    | some d, some p => some (d, p)
    | _, _ => none

/-- The material's valid price points: filter by material id, then coerce
and drop. -/
def validPoints (mid : String) (rows : List PriceRow) : List (ℤ × ℚ) :=
  coercePoints (rows.filter fun r => matchesMaterial mid r.material_id)

/-- One entry of the `predictions` list of `get_price_prediction`. -/
structure Projection where
  date : ℤ
  predicted_price : ℚ
  confidence_low : ℝ
  confidence_high : ℝ

/-- `get_price_prediction` (lines 52-73). `day_num` is the date minus the
minimum date, so `df["day_num"].max()` is `maxDate - minDate`. The
returned history is the filtered, coerced point list (the source formats
its dates as ISO strings). -/
noncomputable def get_price_prediction (rows : List PriceRow) (mid : String) :
    Option (List (ℤ × ℚ) × List Projection) :=
  let df := rows.filter fun r => matchesMaterial mid r.material_id
  if df.length < 2 then none
  else
    let pts := coercePoints df
    if pts.length < 2 then none
    else
      let dates := pts.map Prod.fst
      let ys := pts.map Prod.snd
      let minDate := listMinZ dates
      let maxDate := listMaxZ dates
      let xs : List ℚ := pts.map fun q => ((q.1 - minDate : ℤ) : ℚ)
      let slope := olsSlope xs ys
      let intercept := olsIntercept xs ys
      let lastDay : ℤ := maxDate - minDate
      let s := stdDev ys
      some (pts, (List.range 7).map fun (i : ℕ) =>
        let price := round2 (intercept + slope * ((lastDay + 1 + (i : ℤ) : ℤ) : ℚ))
        { date := maxDate + 1 + (i : ℤ)
          predicted_price := price
          confidence_low := round2R ((price : ℝ) - s)
          confidence_high := round2R ((price : ℝ) + s) })

/-- The reminder id `f"rem_{int(datetime.now().timestamp())}"`. -/
def mkReminderId (nowTs : ℤ) : String := "rem_" ++ toString nowTs

/-- `check_requirement` (lines 102-166). `today` is
`datetime.now().date()` and `nowTs` the same clock's Unix-second
timestamp; both are inputs of the model. Returns the structured outcome
together with the updated `SYSTEM_REMINDERS` list. -/
def check_requirement (req : Requirement) (today nowTs : ℤ)
    (vendors : List Vendor) (reminders : List Reminder) :
    CheckOutcome × List Reminder :=
  let daysToDeadline := req.deadline - today
  if daysToDeadline < 0 then (.invalidDeadline, reminders)
  else
    match vendorCandidates req.material_id vendors with
    | [] => (.noSuppliers, reminders)
    | v :: vs =>
      match (v :: vs).filter (fun u => decide (u.delivery_days ≤ (daysToDeadline : ℚ))) with
      | [] =>
        let fastest := firstMinBy (fun u => u.delivery_days) v vs
        (.deadlineUnmet
          { vendor_id := fastest.vendor_id
            material_id := req.material_id
            quantity := req.quantity
            price_per_unit := fastest.price_per_unit
            total_price := (req.quantity : ℚ) * fastest.price_per_unit
            delivery_days := pyInt fastest.delivery_days
            is_feasible := false }, reminders)
      | f :: fs =>
        let best := firstMaxBy (fun u => u.reliability_score) f fs
        let reminderDate := req.deadline - 2
        let reminders' :=
          if today ≤ reminderDate then
            reminders ++ [{ id := mkReminderId nowTs
                            material_id := req.material_id
                            quantity := req.quantity
                            deadline := req.deadline
                            reminder_date := reminderDate
                            assigned_vendor := best.vendor_id }]
          else reminders
        (.feasible
          { vendor_id := best.vendor_id
            material_id := req.material_id
            quantity := req.quantity
            price_per_unit := best.price_per_unit
            total_price := (req.quantity : ℚ) * best.price_per_unit
            delivery_days := pyInt best.delivery_days
            is_feasible := true }, reminders')

/-- The alert text built by `get_system_alerts`. -/
def alertMessage (r : Reminder) : String :=
  "Reminder: Order " ++ toString r.quantity ++ " units of " ++ r.material_id
    ++ " from " ++ r.assigned_vendor ++ ". Deadline is " ++ toString r.deadline ++ "."

/-- The alert record emitted for a due reminder. -/
def alertOf (r : Reminder) : Alert := { id := r.id, message := alertMessage r }

/-- Whether a reminder is due at `today` (the source compares ISO date
strings, whose order is the integer order modelled here). -/
def dueAt (today : ℤ) (r : Reminder) : Bool := r.reminder_date ≤ today

/-- The loop of `get_system_alerts`: iterate over a copy of the reminder
list (first argument) while calling `list.remove` — removal of the first
equal element — on the live list (second argument) for each due reminder. -/
def collectLoop (today : ℤ) : List Reminder → List Reminder → List Alert × List Reminder
  | [], cur => ([], cur)
  | r :: rest, cur =>
    if dueAt today r then
      let p := collectLoop today rest (cur.erase r)
      (alertOf r :: p.1, p.2)
    else collectLoop today rest cur

/-- `get_system_alerts` (lines 169-191): returns the due alerts and the
reminder list after the in-place removals. -/
def get_system_alerts (today : ℤ) (reminders : List Reminder) :
    List Alert × List Reminder :=
  collectLoop today reminders reminders

/-- An operation on the reminder queue: the evaluator's append
(line 154) or a poll of `get_system_alerts`. -/
inductive QueueOp where
  | enq (r : Reminder)
  | collect (today : ℤ)

/-- Run a sequence of queue operations from a starting reminder list,
returning the final list and all alerts emitted along the way. -/
def runQueue : List Reminder → List QueueOp → List Reminder × List Alert
  | s, [] => (s, [])
  | s, .enq r :: ops => runQueue (s ++ [r]) ops
  | s, .collect t :: ops =>
    let c := get_system_alerts t s
    let k := runQueue c.2 ops
    (k.1, c.1 ++ k.2)

/-- The reminders enqueued by a sequence of queue operations. -/
def enqueuedOf (ops : List QueueOp) : List Reminder :=
  ops.filterMap fun op =>
    match op with
    | .enq r => some r
    | .collect _ => none

/-- The three catalog tables held in the module-level globals. -/
structure CatalogState where
  materials : List MaterialRow
  prices : List PriceRow
  vendors : List Vendor
deriving DecidableEq

/-- Line 40 of the source: if the `name` column is absent, set it to
`material_id` (modelled row-wise; CSV columns are uniform across rows). -/
def defaultNames (mt : List MaterialRow) : List MaterialRow :=
  mt.map fun r => { r with name := some (r.name.getD r.material_id) }

/-- `initialize_data_from_csv` (lines 27-46). Each argument is the result
of reading and standardising one CSV file, `none` when that step raises.
The three global assignments happen in order inside one `try`, so a
failure aborts after the assignments already made; the returned flag is
`initialization_success`. -/
def initialize_data_from_csv (s : CatalogState)
    (m : Option (List MaterialRow)) (p : Option (List PriceRow))
    (v : Option (List Vendor)) : CatalogState × Bool :=
  match m with
  | none => (s, false)
  | some mt =>
    match p with
    | none => ({ s with materials := mt }, false)
    | some pt =>
      match v with
      | none => ({ s with materials := mt, prices := pt }, false)
      | some vt => ({ materials := defaultNames mt, prices := pt, vendors := vt }, true)

/-- `drop_duplicates()`: keep the first occurrence of each value. -/
def dropDuplicates {α : Type} [DecidableEq α] (l : List α) : List α :=
  l.foldl (fun acc x => if x ∈ acc then acc else acc ++ [x]) []

/-- `get_materials` (lines 48-50): the deduplicated
`(material_id, name)` pairs. -/
def get_materials (materials : List MaterialRow) : List (String × Option String) :=
  dropDuplicates (materials.map fun r => (r.material_id, r.name))

/-- The whole mutable module state: the three catalog tables plus
`SYSTEM_REMINDERS`. -/
structure SystemState where
  materials : List MaterialRow
  prices : List PriceRow
  vendors : List Vendor
  reminders : List Reminder
deriving DecidableEq

/-- `get_materials` as a state transformer: reads the globals, writes
nothing. -/
def listMaterialsOp (s : SystemState) : List (String × Option String) × SystemState :=
  (get_materials s.materials, s)

/-- `get_price_prediction` as a state transformer: works on a `.copy()` of
the price table (line 55), writes nothing. -/
noncomputable def forecastOp (mid : String) (s : SystemState) :
    Option (List (ℤ × ℚ) × List Projection) × SystemState :=
  (get_price_prediction s.prices mid, s)

/-- `get_vendor_recommendation` as a state transformer: works on a
`.copy()` of the vendor table (line 78), writes nothing. -/
def rankOp (mid : String) (w : Weights) (s : SystemState) :
    Option (ScoredVendor × List ScoredVendor × ScoreBreakdown) × SystemState :=
  (get_vendor_recommendation mid w s.vendors, s)

/-- `check_requirement` as a state transformer: works on a `.copy()` of
the vendor table (line 113) and appends to `SYSTEM_REMINDERS` only. -/
def evaluateOp (req : Requirement) (today nowTs : ℤ) (s : SystemState) :
    CheckOutcome × SystemState :=
  let r := check_requirement req today nowTs s.vendors s.reminders
  (r.1, { s with reminders := r.2 })

/-- `a` is the first element of `l` attaining the maximum of `f`: `l`
splits around `a` with every earlier element strictly below `f a` and
every later element at most `f a`. -/
def FirstAttainsMax {α : Type} (f : α → ℚ) (l : List α) (a : α) : Prop :=
  ∃ l₁ l₂, l = l₁ ++ a :: l₂ ∧ (∀ x ∈ l₁, f x < f a) ∧ (∀ x ∈ l₂, f x ≤ f a)

/-- `a` is the first element of `l` attaining the minimum of `f`. -/
def FirstAttainsMin {α : Type} (f : α → ℚ) (l : List α) (a : α) : Prop :=
  ∃ l₁ l₂, l = l₁ ++ a :: l₂ ∧ (∀ x ∈ l₁, f a < f x) ∧ (∀ x ∈ l₂, f a ≤ f x)

theorem firstMaxBy_spec {α : Type} (f : α → ℚ) :
    ∀ (xs : List α) (x : α), FirstAttainsMax f (x :: xs) (firstMaxBy f x xs) := by
  intro xs
  induction xs with
  | nil =>
    intro x
    exact ⟨[], [], rfl, by simp, by simp⟩
  | cons y ys ih =>
    intro x
    have hfold : firstMaxBy f x (y :: ys) = firstMaxBy f (if f x < f y then y else x) ys := rfl
    by_cases hxy : f x < f y
    · rw [hfold, if_pos hxy]
      obtain ⟨l₁, l₂, heq, h₁, h₂⟩ := ih y
      have hy : f y ≤ f (firstMaxBy f y ys) := by
        rcases l₁ with _ | ⟨z, l₁'⟩
        · have : y = firstMaxBy f y ys := by simpa using congrArg (fun l => l.head?) heq
          exact le_of_eq (congrArg f this)
        · have hz : y = z := by simpa using congrArg (fun l => l.head?) heq
          exact le_of_lt (hz ▸ h₁ z (by simp))
      exact ⟨x :: l₁, l₂, by rw [List.cons_append, ← heq],
        fun t ht => by
          rcases List.mem_cons.mp ht with h | h
          · exact h ▸ lt_of_lt_of_le hxy hy
          · exact h₁ t h,
        h₂⟩
    · rw [hfold, if_neg hxy]
      obtain ⟨l₁, l₂, heq, h₁, h₂⟩ := ih x
      rcases l₁ with _ | ⟨z, l₁'⟩
      · have hx : x = firstMaxBy f x ys ∧ ys = l₂ := by
          constructor
          · simpa using congrArg (fun l => l.head?) heq
          · simpa using congrArg (fun l => l.tail) heq
        refine ⟨[], y :: ys, by rw [List.nil_append, ← hx.1], by simp, ?_⟩
        intro t ht
        rcases List.mem_cons.mp ht with h | h
        · exact h ▸ (hx.1 ▸ le_of_not_lt hxy)
        · exact h₂ t (hx.2 ▸ h)
      · have hz : x = z ∧ ys = l₁' ++ firstMaxBy f x ys :: l₂ := by
          constructor
          · simpa using congrArg (fun l => l.head?) heq
          · simpa using congrArg (fun l => l.tail) heq
        have hxlt : f x < f (firstMaxBy f x ys) := hz.1 ▸ h₁ z (by simp)
        refine ⟨x :: y :: l₁', l₂,
          by rw [List.cons_append, List.cons_append, ← hz.2], ?_, h₂⟩
        intro t ht
        rcases List.mem_cons.mp ht with h | h
        · exact h ▸ hxlt
        · rcases List.mem_cons.mp h with h' | h'
          · exact h' ▸ lt_of_le_of_lt (le_of_not_lt hxy) hxlt
          · exact h₁ t (by simp [h'])

theorem firstMinBy_spec {α : Type} (f : α → ℚ) :
    ∀ (xs : List α) (x : α), FirstAttainsMin f (x :: xs) (firstMinBy f x xs) := by
  intro xs
  induction xs with
  | nil =>
    intro x
    exact ⟨[], [], rfl, by simp, by simp⟩
  | cons y ys ih =>
    intro x
    have hfold : firstMinBy f x (y :: ys) = firstMinBy f (if f y < f x then y else x) ys := rfl
    by_cases hxy : f y < f x
    · rw [hfold, if_pos hxy]
      obtain ⟨l₁, l₂, heq, h₁, h₂⟩ := ih y
      have hy : f (firstMinBy f y ys) ≤ f y := by
        rcases l₁ with _ | ⟨z, l₁'⟩
        · have : y = firstMinBy f y ys := by simpa using congrArg (fun l => l.head?) heq
          exact le_of_eq (congrArg f this).symm
        · have hz : y = z := by simpa using congrArg (fun l => l.head?) heq
          exact le_of_lt (hz ▸ h₁ z (by simp))
      exact ⟨x :: l₁, l₂, by rw [List.cons_append, ← heq],
        fun t ht => by
          rcases List.mem_cons.mp ht with h | h
          · exact h ▸ lt_of_le_of_lt hy hxy
          · exact h₁ t h,
        h₂⟩
    · rw [hfold, if_neg hxy]
      obtain ⟨l₁, l₂, heq, h₁, h₂⟩ := ih x
      rcases l₁ with _ | ⟨z, l₁'⟩
      · have hx : x = firstMinBy f x ys ∧ ys = l₂ := by
          constructor
          · simpa using congrArg (fun l => l.head?) heq
          · simpa using congrArg (fun l => l.tail) heq
        refine ⟨[], y :: ys, by rw [List.nil_append, ← hx.1], by simp, ?_⟩
        intro t ht
        rcases List.mem_cons.mp ht with h | h
        · exact h ▸ (hx.1 ▸ le_of_not_lt hxy)
        · exact h₂ t (hx.2 ▸ h)
      · have hz : x = z ∧ ys = l₁' ++ firstMinBy f x ys :: l₂ := by
          constructor
          · simpa using congrArg (fun l => l.head?) heq
          · simpa using congrArg (fun l => l.tail) heq
        have hxlt : f (firstMinBy f x ys) < f x := hz.1 ▸ h₁ z (by simp)
        refine ⟨x :: y :: l₁', l₂,
          by rw [List.cons_append, List.cons_append, ← hz.2], ?_, h₂⟩
        intro t ht
        rcases List.mem_cons.mp ht with h | h
        · exact h ▸ hxlt
        · rcases List.mem_cons.mp h with h' | h'
          · exact h' ▸ lt_of_lt_of_le hxlt (le_of_not_lt hxy)
          · exact h₁ t (by simp [h'])

theorem FirstAttainsMax.mem_and_le {α : Type} {f : α → ℚ} {l : List α} {a : α}
    (h : FirstAttainsMax f l a) : a ∈ l ∧ ∀ x ∈ l, f x ≤ f a := by
  obtain ⟨l₁, l₂, heq, h₁, h₂⟩ := h
  subst heq
  refine ⟨by simp, ?_⟩
  intro x hx
  rcases List.mem_append.mp hx with h | h
  · exact le_of_lt (h₁ x h)
  · rcases List.mem_cons.mp h with h' | h'
    · exact le_of_eq (congrArg f h')
    · exact h₂ x h'

/-- Whatever branch `check_requirement` takes, the reminder list grows by
a (possibly empty) suffix. -/
theorem check_requirement_appends (req : Requirement) (today nowTs : ℤ)
    (vendors : List Vendor) (reminders : List Reminder) :
    ∃ t, (check_requirement req today nowTs vendors reminders).2 = reminders ++ t := by
  simp only [check_requirement]
  by_cases h1 : req.deadline - today < 0
  · rw [if_pos h1]
    exact ⟨[], (List.append_nil _).symm⟩
  · rw [if_neg h1]
    cases hc : vendorCandidates req.material_id vendors with
    | nil => exact ⟨[], (List.append_nil _).symm⟩
    | cons v vs =>
      dsimp only
      cases hf : (v :: vs).filter
          (fun u => decide (u.delivery_days ≤ ((req.deadline - today : ℤ) : ℚ))) with
      | nil => exact ⟨[], (List.append_nil _).symm⟩
      | cons f fs =>
        dsimp only
        by_cases h2 : today ≤ req.deadline - 2
        · rw [if_pos h2]
          exact ⟨_, rfl⟩
        · rw [if_neg h2]
          exact ⟨[], (List.append_nil _).symm⟩

theorem foldl_max_const (c : ℚ) : ∀ (xs : List ℚ) (x : ℚ), x = c → (∀ y ∈ xs, y = c) →
    xs.foldl max x = c := by
  intro xs
  induction xs with
  | nil => intro x hx _; exact hx
  | cons y ys ih =>
    intro x hx hall
    have hy : y = c := hall y (by simp)
    refine ih (max x y) ?_ fun z hz => hall z (by simp [hz])
    rw [hx, hy, max_self]

theorem listMaxQ_of_all_eq (c : ℚ) (l : List ℚ) (hne : l ≠ []) (hall : ∀ y ∈ l, y = c) :
    listMaxQ l = c := by
  cases l with
  | nil => exact absurd rfl hne
  | cons x xs =>
    exact foldl_max_const c xs x (hall x (by simp)) fun z hz => hall z (by simp [hz])

theorem norm_if_zero (c : ℚ) : (if 0 < c then 1 - c / c else 0) = (0 : ℚ) := by
  by_cases h : 0 < c
  · rw [if_pos h, div_self (ne_of_gt h), sub_self]
  · rw [if_neg h]

/-- Inversion of a successful `get_vendor_recommendation`: the scored
candidate frame is nonempty, the best row is the first-max fold over it
and the ranking is the descending sort. -/
theorem rank_some_inv (mid : String) (w : Weights) (vendors : List Vendor)
    {b : ScoredVendor} {r : List ScoredVendor} {bd : ScoreBreakdown}
    (h : get_vendor_recommendation mid w vendors = some (b, r, bd)) :
    ∃ s ss, scoreVendors w (vendorCandidates mid vendors) = s :: ss ∧
      b = firstMaxBy (fun t => t.final_score) s ss ∧
      r = sortValuesDescByScore (s :: ss) := by
  cases hs : scoreVendors w (vendorCandidates mid vendors) with
  | nil =>
    rw [get_vendor_recommendation, hs] at h
    exact absurd h (by simp)
  | cons s ss =>
    rw [get_vendor_recommendation, hs] at h
    simp only [Option.some.injEq, Prod.mk.injEq] at h
    exact ⟨s, ss, rfl, h.1.symm, h.2.1.symm⟩

/-- C1 (counterexample). A load in which the materials CSV is read
successfully but the price CSV read raises leaves the Catalog Store in a
mixed state: the new materials table next to the old price and vendor
tables — neither the fully-old nor a fully-new table set. The second
conjunct records that the materials table really changed. -/
theorem load_failure_leaves_mixed_tables :
    initialize_data_from_csv
        { materials := [⟨"old", some "Old"⟩],
          prices := [⟨"old", some 0, some 1⟩],
          vendors := [⟨"old", "v", 1, 1, 1⟩] }
        (some [⟨"new", none⟩]) none (some []) =
      ({ materials := [⟨"new", none⟩],
         prices := [⟨"old", some 0, some 1⟩],
         vendors := [⟨"old", "v", 1, 1, 1⟩] }, false) ∧
    ([(⟨"new", none⟩ : MaterialRow)] ≠ [⟨"old", some "Old"⟩]) := by
  exact ⟨rfl, by decide⟩

/-- C1 (amended). `initialize_data_from_csv` performs the three table
assignments in order inside one `try`: on failure the success flag is
false and exactly the tables assigned before the failing read hold the
new contents, while the later tables keep their previous contents; the
store is fully unchanged only when the first (materials) read fails. On
full success all three tables are replaced (with names defaulted) and the
flag is true. -/
theorem initialize_data_partial_update (s : CatalogState)
    (m : Option (List MaterialRow)) (p : Option (List PriceRow))
    (v : Option (List Vendor)) :
    ((initialize_data_from_csv s m p v).2 = false ↔ m = none ∨ p = none ∨ v = none) ∧
    (m = none → (initialize_data_from_csv s m p v).1 = s) ∧
    (∀ mt, m = some mt → p = none →
      (initialize_data_from_csv s m p v).1 = { s with materials := mt }) ∧
    (∀ mt pt, m = some mt → p = some pt → v = none →
      (initialize_data_from_csv s m p v).1 = { s with materials := mt, prices := pt }) ∧
    (∀ mt pt vt, m = some mt → p = some pt → v = some vt →
      initialize_data_from_csv s m p v =
        ({ materials := defaultNames mt, prices := pt, vendors := vt }, true)) := by
  rcases m with _ | mt <;> rcases p with _ | pt <;> rcases v with _ | vt <;>
    simp [initialize_data_from_csv]

theorem initialize_data_partial_update_witness :
    (initialize_data_from_csv
        { materials := [⟨"old", some "Old"⟩], prices := [], vendors := [] }
        (some [⟨"new", none⟩]) none (some [])).1 =
      { materials := [⟨"new", none⟩], prices := [], vendors := [] } :=
  (initialize_data_partial_update
      { materials := [⟨"old", some "Old"⟩], prices := [], vendors := [] }
      (some [⟨"new", none⟩]) none (some [])).2.2.1 [⟨"new", none⟩] rfl rfl

/-- C10. None of the query or evaluation operations modifies the catalog
tables: `get_materials`, `get_price_prediction` and
`get_vendor_recommendation` leave the whole state unchanged (they operate
on copies of the global frames), and `check_requirement` preserves the
three catalog tables, only ever appending to the reminder queue. -/
theorem operations_preserve_catalog (s : SystemState) (mid : String) (w : Weights)
    (req : Requirement) (today nowTs : ℤ) :
    (listMaterialsOp s).2 = s ∧
    (forecastOp mid s).2 = s ∧
    (rankOp mid w s).2 = s ∧
    (evaluateOp req today nowTs s).2.materials = s.materials ∧
    (evaluateOp req today nowTs s).2.prices = s.prices ∧
    (evaluateOp req today nowTs s).2.vendors = s.vendors ∧
    ∃ t, (evaluateOp req today nowTs s).2.reminders = s.reminders ++ t := by
  refine ⟨rfl, rfl, rfl, rfl, rfl, rfl, ?_⟩
  exact check_requirement_appends req today nowTs s.vendors s.reminders

/-- C3 (counterexample). The claim quantifies over all three criteria,
but reliability is normalised by the constant scale 5, not by the
candidate maximum: with both candidates sharing `reliability_score = 5`
and weight triple (price 0, delivery 0, reliability 1), every candidate's
reliability contribution to `final_score` is `rel_norm * 1 = 1`, not 0,
and the best candidate's reported breakdown entry is 1 as well. -/
theorem reliability_contribution_not_zero_on_ties :
    ((scoreVendors ⟨0, 0, 1⟩
          (vendorCandidates "m" [⟨"m", "v1", 5, 1, 1⟩, ⟨"m", "v2", 5, 2, 2⟩])).map
        fun sc => sc.rel_norm * (1 : ℚ)) = [1, 1] ∧
    ((get_vendor_recommendation "m" ⟨0, 0, 1⟩
          [⟨"m", "v1", 5, 1, 1⟩, ⟨"m", "v2", 5, 2, 2⟩]).map
        fun r => r.2.2.reliability) = some 1 ∧
    (1 : ℚ) ≠ 0 :=
  ⟨by norm_num [scoreVendors, vendorCandidates, matchesMaterial, lowerStr, listMaxQ, max_def],
   by norm_num [get_vendor_recommendation, scoreVendors, vendorCandidates, matchesMaterial,
     lowerStr, listMaxQ, max_def, firstMaxBy, sortValuesDescByScore, scoreLE],
   by norm_num⟩

/-- C3 (amended). For the price and delivery criteria the claim holds:
whenever all candidates for a material share the same value of the
criterion, that criterion's normalised value — and hence its weighted
contribution to `final_score` — is 0 for every candidate, with the
`max > 0` guard covering the zero/negative-maximum cases (the model's
total arithmetic shows no NaN can arise). The reliability criterion is
excluded: it is scaled by the constant 5, so a shared reliability value
`c` contributes `(c / 5) * w.reliability`, which is nonzero whenever `c`
and the weight are. -/
theorem degenerate_delivery_price_norms_zero (mid : String) (w : Weights)
    (vendors : List Vendor) :
    ((∀ u₁ ∈ vendorCandidates mid vendors, ∀ u₂ ∈ vendorCandidates mid vendors,
        u₁.delivery_days = u₂.delivery_days) →
      ∀ sc ∈ scoreVendors w (vendorCandidates mid vendors),
        sc.del_norm = 0 ∧ sc.del_norm * w.delivery = 0) ∧
    ((∀ u₁ ∈ vendorCandidates mid vendors, ∀ u₂ ∈ vendorCandidates mid vendors,
        u₁.price_per_unit = u₂.price_per_unit) →
      ∀ sc ∈ scoreVendors w (vendorCandidates mid vendors),
        sc.price_norm = 0 ∧ sc.price_norm * w.price = 0) := by
  constructor
  · intro hall sc hsc
    simp only [scoreVendors] at hsc
    obtain ⟨u, hu, rfl⟩ := List.mem_map.mp hsc
    have hmax : listMaxQ ((vendorCandidates mid vendors).map fun v => v.delivery_days) =
        u.delivery_days := by
      refine listMaxQ_of_all_eq _ _ ?_ ?_
      · intro hnil
        rw [List.map_eq_nil_iff] at hnil
        rw [hnil] at hu
        exact absurd hu (List.not_mem_nil u)
      · intro y hy
        obtain ⟨u₂, hu₂, rfl⟩ := List.mem_map.mp hy
        exact hall u₂ hu₂ u hu
    constructor
    · dsimp only
      rw [hmax]
      exact norm_if_zero u.delivery_days
    · dsimp only
      rw [hmax, norm_if_zero u.delivery_days, zero_mul]
  · intro hall sc hsc
    simp only [scoreVendors] at hsc
    obtain ⟨u, hu, rfl⟩ := List.mem_map.mp hsc
    have hmax : listMaxQ ((vendorCandidates mid vendors).map fun v => v.price_per_unit) =
        u.price_per_unit := by
      refine listMaxQ_of_all_eq _ _ ?_ ?_
      · intro hnil
        rw [List.map_eq_nil_iff] at hnil
        rw [hnil] at hu
        exact absurd hu (List.not_mem_nil u)
      · intro y hy
        obtain ⟨u₂, hu₂, rfl⟩ := List.mem_map.mp hy
        exact hall u₂ hu₂ u hu
    constructor
    · dsimp only
      rw [hmax]
      exact norm_if_zero u.price_per_unit
    · dsimp only
      rw [hmax, norm_if_zero u.price_per_unit, zero_mul]

theorem degenerate_delivery_price_norms_zero_witness :
    ((⟨⟨"m", "v1", 5, 3, 7⟩, 1, 0, 0, 1⟩ : ScoredVendor).del_norm = 0 ∧
      (⟨⟨"m", "v1", 5, 3, 7⟩, 1, 0, 0, 1⟩ : ScoredVendor).del_norm * (⟨1, 1, 1⟩ : Weights).delivery = 0) ∧
    ((⟨⟨"m", "v1", 5, 3, 7⟩, 1, 0, 0, 1⟩ : ScoredVendor).price_norm = 0 ∧
      (⟨⟨"m", "v1", 5, 3, 7⟩, 1, 0, 0, 1⟩ : ScoredVendor).price_norm * (⟨1, 1, 1⟩ : Weights).price = 0) :=
  ⟨(degenerate_delivery_price_norms_zero "m" ⟨1, 1, 1⟩
      [⟨"m", "v1", 5, 3, 7⟩, ⟨"m", "v2", 2, 3, 7⟩]).1 (by decide)
      ⟨⟨"m", "v1", 5, 3, 7⟩, 1, 0, 0, 1⟩
      (by norm_num [scoreVendors, vendorCandidates, matchesMaterial, lowerStr, listMaxQ, max_def]),
   (degenerate_delivery_price_norms_zero "m" ⟨1, 1, 1⟩
      [⟨"m", "v1", 5, 3, 7⟩, ⟨"m", "v2", 2, 3, 7⟩]).2 (by decide)
      ⟨⟨"m", "v1", 5, 3, 7⟩, 1, 0, 0, 1⟩
      (by norm_num [scoreVendors, vendorCandidates, matchesMaterial, lowerStr, listMaxQ, max_def])⟩

/-- C6 (counterexample). Two candidates with identical attributes tie at
`final_score = 1`, yet `rankedAll` lists them in reversed input order
("v2" before "v1"): `sort_values(..., ascending=False)` reverses the
ascending argsort, so the sort is not stable on ties. -/
theorem ranked_ties_reversed :
    ((get_vendor_recommendation "m" ⟨1, 1, 1⟩
          [⟨"m", "v1", 5, 1, 1⟩, ⟨"m", "v2", 5, 1, 1⟩]).map
        fun r => r.2.1.map fun sc => (sc.v.vendor_id, sc.final_score)) =
      some [("v2", 1), ("v1", 1)] ∧
    some [("v2", (1 : ℚ)), ("v1", 1)] ≠ some [("v1", 1), ("v2", 1)] :=
  ⟨by norm_num [get_vendor_recommendation, scoreVendors, vendorCandidates, matchesMaterial,
      lowerStr, listMaxQ, max_def, firstMaxBy, sortValuesDescByScore, scoreLE],
   by decide⟩

/-- C6 (amended). `rankedAll` is a permutation of the scored candidate
set, sorted by `final_score` in descending order; the sort is not stable:
as the counterexample shows, candidates with equal `final_score` appear
in reversed input order (pandas computes an ascending argsort and
reverses the permutation). -/
theorem rankedAll_sorted_descending (mid : String) (w : Weights) (vendors : List Vendor)
    (b : ScoredVendor) (r : List ScoredVendor) (bd : ScoreBreakdown)
    (h : get_vendor_recommendation mid w vendors = some (b, r, bd)) :
    r.Perm (scoreVendors w (vendorCandidates mid vendors)) ∧
    r.Pairwise (fun a c => c.final_score ≤ a.final_score) := by
  obtain ⟨s, ss, hs, _, hr⟩ := rank_some_inv mid w vendors h
  subst hr
  constructor
  · rw [hs]
    exact (List.reverse_perm _).trans (List.perm_insertionSort scoreLE (s :: ss))
  · unfold sortValuesDescByScore
    rw [List.pairwise_reverse]
    have hsorted := List.sorted_insertionSort scoreLE (s :: ss)
    simpa [List.Sorted, scoreLE] using hsorted

theorem rankedAll_sorted_descending_witness :
    ([⟨⟨"m", "v2", 1, 1, 5⟩, 1/5, 1/2, 1/2, 6/5⟩,
      ⟨⟨"m", "v1", 5, 2, 10⟩, 1, 0, 0, 1⟩] : List ScoredVendor).Perm
        (scoreVendors ⟨1, 1, 1⟩
          (vendorCandidates "m" [⟨"m", "v1", 5, 2, 10⟩, ⟨"m", "v2", 1, 1, 5⟩])) ∧
    ([⟨⟨"m", "v2", 1, 1, 5⟩, 1/5, 1/2, 1/2, 6/5⟩,
      ⟨⟨"m", "v1", 5, 2, 10⟩, 1, 0, 0, 1⟩] : List ScoredVendor).Pairwise
        (fun a c => c.final_score ≤ a.final_score) :=
  rankedAll_sorted_descending "m" ⟨1, 1, 1⟩ [⟨"m", "v1", 5, 2, 10⟩, ⟨"m", "v2", 1, 1, 5⟩]
    ⟨⟨"m", "v2", 1, 1, 5⟩, 1/5, 1/2, 1/2, 6/5⟩
    [⟨⟨"m", "v2", 1, 1, 5⟩, 1/5, 1/2, 1/2, 6/5⟩, ⟨⟨"m", "v1", 5, 2, 10⟩, 1, 0, 0, 1⟩]
    ⟨1/5, 1/2, 1/2⟩
    (by norm_num [get_vendor_recommendation, scoreVendors, vendorCandidates, matchesMaterial,
      lowerStr, listMaxQ, max_def, firstMaxBy, sortValuesDescByScore, scoreLE])

/-- Inversion of the `DeadlineUnmet` outcome of `check_requirement`: the
candidate frame is nonempty and the reported vendor details are built
from the first-min fold over all candidates. -/
theorem check_requirement_deadlineUnmet_inv (req : Requirement) (today nowTs : ℤ)
    (vendors : List Vendor) (reminders : List Reminder) (d : VendorDetails)
    (h : (check_requirement req today nowTs vendors reminders).1 = .deadlineUnmet d) :
    ∃ v vs, vendorCandidates req.material_id vendors = v :: vs ∧
      d = { vendor_id := (firstMinBy (fun u => u.delivery_days) v vs).vendor_id
            material_id := req.material_id
            quantity := req.quantity
            price_per_unit := (firstMinBy (fun u => u.delivery_days) v vs).price_per_unit
            total_price := (req.quantity : ℚ) *
              (firstMinBy (fun u => u.delivery_days) v vs).price_per_unit
            delivery_days := pyInt (firstMinBy (fun u => u.delivery_days) v vs).delivery_days
            is_feasible := false } := by
  simp only [check_requirement] at h
  by_cases h1 : req.deadline - today < 0
  · rw [if_pos h1] at h
    exact absurd h (by simp)
  · rw [if_neg h1] at h
    cases hc : vendorCandidates req.material_id vendors with
    | nil =>
      rw [hc] at h
      dsimp only at h
      exact absurd h (by simp)
    | cons v vs =>
      rw [hc] at h
      dsimp only at h
      cases hf : (v :: vs).filter
          (fun u => decide (u.delivery_days ≤ ((req.deadline - today : ℤ) : ℚ))) with
      | nil =>
        rw [hf] at h
        dsimp only at h
        injection h with h
        exact ⟨v, vs, rfl, h.symm⟩
      | cons f fs =>
        rw [hf] at h
        dsimp only at h
        exact absurd h (by simp)

/-- Inversion of the `Feasible` outcome of `check_requirement`: the
feasible frame is nonempty and the reported vendor details are built from
the first-max-reliability fold over it. -/
theorem check_requirement_feasible_inv (req : Requirement) (today nowTs : ℤ)
    (vendors : List Vendor) (reminders : List Reminder) (d : VendorDetails)
    (h : (check_requirement req today nowTs vendors reminders).1 = .feasible d) :
    ∃ f fs, (vendorCandidates req.material_id vendors).filter
        (fun u => decide (u.delivery_days ≤ ((req.deadline - today : ℤ) : ℚ))) = f :: fs ∧
      d = { vendor_id := (firstMaxBy (fun u => u.reliability_score) f fs).vendor_id
            material_id := req.material_id
            quantity := req.quantity
            price_per_unit := (firstMaxBy (fun u => u.reliability_score) f fs).price_per_unit
            total_price := (req.quantity : ℚ) *
              (firstMaxBy (fun u => u.reliability_score) f fs).price_per_unit
            delivery_days := pyInt (firstMaxBy (fun u => u.reliability_score) f fs).delivery_days
            is_feasible := true } := by
  simp only [check_requirement] at h
  by_cases h1 : req.deadline - today < 0
  · rw [if_pos h1] at h
    exact absurd h (by simp)
  · rw [if_neg h1] at h
    cases hc : vendorCandidates req.material_id vendors with
    | nil =>
      rw [hc] at h
      dsimp only at h
      exact absurd h (by simp)
    | cons v vs =>
      rw [hc] at h
      dsimp only at h
      cases hf : (v :: vs).filter
          (fun u => decide (u.delivery_days ≤ ((req.deadline - today : ℤ) : ℚ))) with
      | nil =>
        rw [hf] at h
        dsimp only at h
        exact absurd h (by simp)
      | cons f fs =>
        rw [hf] at h
        dsimp only at h
        injection h with h
        exact ⟨f, fs, rfl, h.symm⟩

/-- C4. Whenever some candidate vendor offer (with the data model's
non-negative `delivery_days`) meets `delivery_days ≤ deadline - today`,
`check_requirement` returns the `Feasible` outcome built from a vendor of
maximum `reliability_score` among exactly the feasible candidates, with
`total_price = quantity * price_per_unit` and `is_feasible = true`, and
it appends a reminder referencing the requirement and that vendor, with
`reminder_date = deadline - 2`, if and only if `deadline - 2 ≥ today`. -/
theorem feasible_requirement_spec (req : Requirement) (today nowTs : ℤ)
    (vendors : List Vendor) (reminders : List Reminder)
    (hpos : ∀ u ∈ vendorCandidates req.material_id vendors, 0 ≤ u.delivery_days)
    (hex : ∃ u ∈ vendorCandidates req.material_id vendors,
      u.delivery_days ≤ ((req.deadline - today : ℤ) : ℚ)) :
    ∃ best,
      best ∈ (vendorCandidates req.material_id vendors).filter
          (fun u => decide (u.delivery_days ≤ ((req.deadline - today : ℤ) : ℚ))) ∧
      (∀ u ∈ (vendorCandidates req.material_id vendors).filter
          (fun u => decide (u.delivery_days ≤ ((req.deadline - today : ℤ) : ℚ))),
        u.reliability_score ≤ best.reliability_score) ∧
      check_requirement req today nowTs vendors reminders =
        (.feasible { vendor_id := best.vendor_id
                     material_id := req.material_id
                     quantity := req.quantity
                     price_per_unit := best.price_per_unit
                     total_price := (req.quantity : ℚ) * best.price_per_unit
                     delivery_days := pyInt best.delivery_days
                     is_feasible := true },
         if today ≤ req.deadline - 2 then
           reminders ++ [{ id := mkReminderId nowTs
                           material_id := req.material_id
                           quantity := req.quantity
                           deadline := req.deadline
                           reminder_date := req.deadline - 2
                           assigned_vendor := best.vendor_id }]
         else reminders) := by
  obtain ⟨u, hu, hud⟩ := hex
  have hd0 : (0 : ℚ) ≤ ((req.deadline - today : ℤ) : ℚ) := le_trans (hpos u hu) hud
  have hd1 : ¬ req.deadline - today < 0 := by
    rw [not_lt]
    exact_mod_cast hd0
  have humem : u ∈ (vendorCandidates req.material_id vendors).filter
      (fun u => decide (u.delivery_days ≤ ((req.deadline - today : ℤ) : ℚ))) :=
    List.mem_filter.mpr ⟨hu, decide_eq_true hud⟩
  cases hc : vendorCandidates req.material_id vendors with
  | nil =>
    rw [hc] at hu
    exact absurd hu (List.not_mem_nil u)
  | cons v vs =>
    cases hf : (v :: vs).filter
        (fun u => decide (u.delivery_days ≤ ((req.deadline - today : ℤ) : ℚ))) with
    | nil =>
      rw [hc, hf] at humem
      exact absurd humem (List.not_mem_nil u)
    | cons f fs =>
      refine ⟨firstMaxBy (fun t => t.reliability_score) f fs, ?_, ?_, ?_⟩
      · exact (firstMaxBy_spec _ fs f).mem_and_le.1
      · exact (firstMaxBy_spec _ fs f).mem_and_le.2
      · simp only [check_requirement]
        rw [if_neg hd1, hc]
        dsimp only
        rw [hf]

theorem feasible_requirement_spec_witness :
    ∃ best,
      best ∈ (vendorCandidates "m1" [⟨"m1", "v1", 4, 3, 7⟩]).filter
          (fun u => decide (u.delivery_days ≤ ((10 - 0 : ℤ) : ℚ))) ∧
      (∀ u ∈ (vendorCandidates "m1" [⟨"m1", "v1", 4, 3, 7⟩]).filter
          (fun u => decide (u.delivery_days ≤ ((10 - 0 : ℤ) : ℚ))),
        u.reliability_score ≤ best.reliability_score) ∧
      check_requirement ⟨"m1", 2, 10⟩ 0 5 [⟨"m1", "v1", 4, 3, 7⟩] [] =
        (.feasible { vendor_id := best.vendor_id
                     material_id := "m1"
                     quantity := 2
                     price_per_unit := best.price_per_unit
                     total_price := ((2 : ℤ) : ℚ) * best.price_per_unit
                     delivery_days := pyInt best.delivery_days
                     is_feasible := true },
         if (0 : ℤ) ≤ 10 - 2 then
           [] ++ [{ id := mkReminderId 5
                    material_id := "m1"
                    quantity := 2
                    deadline := 10
                    reminder_date := 10 - 2
                    assigned_vendor := best.vendor_id }]
         else []) :=
  feasible_requirement_spec ⟨"m1", 2, 10⟩ 0 5 [⟨"m1", "v1", 4, 3, 7⟩] []
    (by decide) (by decide)

/-- C8 (code bug). The reminder id is `rem_` followed by the whole-second
Unix timestamp, so two feasible evaluations during the same clock second
(here both at timestamp 100) enqueue two reminders with the identical id
`rem_100`, violating the spec's id uniqueness. -/
theorem duplicate_reminder_ids :
    ((check_requirement ⟨"m1", 1, 5⟩ 0 100 [⟨"m1", "v1", 5, 1, 10⟩]
        (check_requirement ⟨"m1", 1, 5⟩ 0 100 [⟨"m1", "v1", 5, 1, 10⟩] []).2).2.map
      fun r => r.id) = ["rem_100", "rem_100"] := by decide

/-- C9. All three argmax/argmin selections take the first row in stored
table order: `get_vendor_recommendation`'s best vendor is the first
scored candidate attaining the maximum `final_score`; on `DeadlineUnmet`
the reported "fastest" vendor is the first candidate attaining the
minimum `delivery_days`; on `Feasible` the assigned vendor is the first
feasible candidate attaining the maximum `reliability_score`. -/
theorem argmax_selections_first_row (mid : String) (w : Weights) (vendorsR : List Vendor)
    (req : Requirement) (today nowTs : ℤ) (reminders : List Reminder) :
    (∀ b r bd, get_vendor_recommendation mid w vendorsR = some (b, r, bd) →
      FirstAttainsMax (fun t => t.final_score)
        (scoreVendors w (vendorCandidates mid vendorsR)) b) ∧
    (∀ d, (check_requirement req today nowTs vendorsR reminders).1 = .deadlineUnmet d →
      ∃ fastest, FirstAttainsMin (fun u => u.delivery_days)
          (vendorCandidates req.material_id vendorsR) fastest ∧
        d.vendor_id = fastest.vendor_id ∧ d.price_per_unit = fastest.price_per_unit ∧
        d.delivery_days = pyInt fastest.delivery_days) ∧
    (∀ d, (check_requirement req today nowTs vendorsR reminders).1 = .feasible d →
      ∃ best, FirstAttainsMax (fun u => u.reliability_score)
          ((vendorCandidates req.material_id vendorsR).filter
            (fun u => decide (u.delivery_days ≤ ((req.deadline - today : ℤ) : ℚ)))) best ∧
        d.vendor_id = best.vendor_id ∧ d.price_per_unit = best.price_per_unit) := by
  refine ⟨?_, ?_, ?_⟩
  · intro b r bd h
    obtain ⟨s, ss, hs, hb, _⟩ := rank_some_inv mid w vendorsR h
    rw [hs, hb]
    exact firstMaxBy_spec _ ss s
  · intro d h
    obtain ⟨v, vs, hc, hd⟩ :=
      check_requirement_deadlineUnmet_inv req today nowTs vendorsR reminders d h
    refine ⟨firstMinBy (fun u => u.delivery_days) v vs, ?_, ?_, ?_, ?_⟩
    · rw [hc]
      exact firstMinBy_spec _ vs v
    · rw [hd]
    · rw [hd]
    · rw [hd]
  · intro d h
    obtain ⟨f, fs, hf, hd⟩ :=
      check_requirement_feasible_inv req today nowTs vendorsR reminders d h
    refine ⟨firstMaxBy (fun u => u.reliability_score) f fs, ?_, ?_, ?_⟩
    · rw [hf]
      exact firstMaxBy_spec _ fs f
    · rw [hd]
    · rw [hd]

theorem argmax_selections_first_row_witness :
    FirstAttainsMax (fun t => t.final_score)
      (scoreVendors ⟨1, 1, 1⟩
        (vendorCandidates "m1" [⟨"m1", "v1", 3, 5, 10⟩, ⟨"m1", "v2", 3, 2, 8⟩]))
      ⟨⟨"m1", "v2", 3, 2, 8⟩, 3/5, 3/5, 1/5, 7/5⟩ ∧
    (∃ fastest, FirstAttainsMin (fun u => u.delivery_days)
        (vendorCandidates "m1" [⟨"m1", "v1", 3, 5, 10⟩, ⟨"m1", "v2", 3, 2, 8⟩]) fastest ∧
      ("v2" : String) = fastest.vendor_id ∧ (8 : ℚ) = fastest.price_per_unit ∧
      (2 : ℤ) = pyInt fastest.delivery_days) ∧
    (∃ best, FirstAttainsMax (fun u => u.reliability_score)
        ((vendorCandidates "m1" [⟨"m1", "v1", 3, 5, 10⟩, ⟨"m1", "v2", 3, 2, 8⟩]).filter
          (fun u => decide (u.delivery_days ≤ ((4 - 0 : ℤ) : ℚ)))) best ∧
      ("v2" : String) = best.vendor_id ∧ (8 : ℚ) = best.price_per_unit) :=
  ⟨(argmax_selections_first_row "m1" ⟨1, 1, 1⟩
        [⟨"m1", "v1", 3, 5, 10⟩, ⟨"m1", "v2", 3, 2, 8⟩] ⟨"m1", 2, 4⟩ 0 7 []).1
      ⟨⟨"m1", "v2", 3, 2, 8⟩, 3/5, 3/5, 1/5, 7/5⟩
      [⟨⟨"m1", "v2", 3, 2, 8⟩, 3/5, 3/5, 1/5, 7/5⟩, ⟨⟨"m1", "v1", 3, 5, 10⟩, 3/5, 0, 0, 3/5⟩]
      ⟨3/5, 3/5, 1/5⟩
      (by norm_num [get_vendor_recommendation, scoreVendors, vendorCandidates, matchesMaterial,
        lowerStr, listMaxQ, max_def, firstMaxBy, sortValuesDescByScore, scoreLE]),
   (argmax_selections_first_row "m1" ⟨1, 1, 1⟩
        [⟨"m1", "v1", 3, 5, 10⟩, ⟨"m1", "v2", 3, 2, 8⟩] ⟨"m1", 2, 1⟩ 0 7 []).2.1
      ⟨"v2", "m1", 2, 8, 16, 2, false⟩
      (by norm_num [check_requirement, vendorCandidates, matchesMaterial, lowerStr,
        firstMinBy, pyInt]),
   (argmax_selections_first_row "m1" ⟨1, 1, 1⟩
        [⟨"m1", "v1", 3, 5, 10⟩, ⟨"m1", "v2", 3, 2, 8⟩] ⟨"m1", 2, 4⟩ 0 7 []).2.2
      ⟨"v2", "m1", 2, 8, 16, 2, true⟩
      (by norm_num [check_requirement, vendorCandidates, matchesMaterial, lowerStr,
        firstMaxBy, pyInt])⟩

/-- Two-decimal rounding of a hundredth-grid value shifted by `±s`: the
resulting band width does not depend on the grid value. -/
theorem round2R_width (m : ℤ) (s : ℝ) :
    round2R ((((m : ℚ) / 100 : ℚ) : ℝ) + s) - round2R ((((m : ℚ) / 100 : ℚ) : ℝ) - s) =
      ((round (s * 100) : ℤ) : ℝ) / 100 - ((round (-(s * 100)) : ℤ) : ℝ) / 100 := by
  unfold round2R
  have h1 : ((((m : ℚ) / 100 : ℚ) : ℝ) + s) * 100 = s * 100 + (m : ℝ) := by
    push_cast
    ring
  have h2 : ((((m : ℚ) / 100 : ℚ) : ℝ) - s) * 100 = -(s * 100) + (m : ℝ) := by
    push_cast
    ring
  rw [h1, h2, round_add_int, round_add_int]
  push_cast
  ring

/-- C2. For a material with at least 2 valid price points after coercion,
`get_price_prediction` succeeds, its history is the filtered coerced
series, and it returns exactly 7 projections in strictly chronological
order whose dates are the 7 consecutive days immediately after the
latest historical date of the filtered series. -/
theorem forecast_seven_consecutive_days (rows : List PriceRow) (mid : String)
    (h : 2 ≤ (validPoints mid rows).length) :
    ∃ hist preds, get_price_prediction rows mid = some (hist, preds) ∧
      hist = validPoints mid rows ∧
      preds.length = 7 ∧
      (preds.map fun p => p.date) =
        [listMaxZ ((validPoints mid rows).map Prod.fst) + 1,
         listMaxZ ((validPoints mid rows).map Prod.fst) + 2,
         listMaxZ ((validPoints mid rows).map Prod.fst) + 3,
         listMaxZ ((validPoints mid rows).map Prod.fst) + 4,
         listMaxZ ((validPoints mid rows).map Prod.fst) + 5,
         listMaxZ ((validPoints mid rows).map Prod.fst) + 6,
         listMaxZ ((validPoints mid rows).map Prod.fst) + 7] ∧
      List.Chain' (· < ·) (preds.map fun p => p.date) := by
  have h' : 2 ≤ (coercePoints (rows.filter fun r => matchesMaterial mid r.material_id)).length := h
  have hlen1 : ¬ (rows.filter fun r => matchesMaterial mid r.material_id).length < 2 :=
    not_lt.mpr (le_trans h' (List.length_filterMap_le _ _))
  have hlen2 :
      ¬ (coercePoints (rows.filter fun r => matchesMaterial mid r.material_id)).length < 2 :=
    not_lt.mpr h'
  have h7 : List.range 7 = [0, 1, 2, 3, 4, 5, 6] := rfl
  simp only [get_price_prediction, if_neg hlen1, if_neg hlen2]
  refine ⟨_, _, rfl, ?_, ?_, ?_, ?_⟩
  · rfl
  · rw [List.length_map, List.length_range]
  · rw [List.map_map, h7]
    simp only [validPoints, List.map_cons, List.map_nil, Function.comp, List.cons.injEq,
      and_true]
    norm_num
    omega
  · rw [List.map_map, h7]
    simp only [List.map_cons, List.map_nil, Function.comp, List.chain'_cons,
      List.chain'_singleton, and_true]
    norm_num

theorem forecast_seven_consecutive_days_witness :
    (2 ≤ (validPoints "m1" [⟨"m1", some 0, some 10⟩, ⟨"m1", some 1, some 12⟩]).length) ∧
    ∃ hist preds,
      get_price_prediction [⟨"m1", some 0, some 10⟩, ⟨"m1", some 1, some 12⟩] "m1" =
        some (hist, preds) ∧
      hist = validPoints "m1" [⟨"m1", some 0, some 10⟩, ⟨"m1", some 1, some 12⟩] ∧
      preds.length = 7 ∧
      (preds.map fun p => p.date) =
        [listMaxZ ((validPoints "m1" [⟨"m1", some 0, some 10⟩, ⟨"m1", some 1, some 12⟩]).map Prod.fst) + 1,
         listMaxZ ((validPoints "m1" [⟨"m1", some 0, some 10⟩, ⟨"m1", some 1, some 12⟩]).map Prod.fst) + 2,
         listMaxZ ((validPoints "m1" [⟨"m1", some 0, some 10⟩, ⟨"m1", some 1, some 12⟩]).map Prod.fst) + 3,
         listMaxZ ((validPoints "m1" [⟨"m1", some 0, some 10⟩, ⟨"m1", some 1, some 12⟩]).map Prod.fst) + 4,
         listMaxZ ((validPoints "m1" [⟨"m1", some 0, some 10⟩, ⟨"m1", some 1, some 12⟩]).map Prod.fst) + 5,
         listMaxZ ((validPoints "m1" [⟨"m1", some 0, some 10⟩, ⟨"m1", some 1, some 12⟩]).map Prod.fst) + 6,
         listMaxZ ((validPoints "m1" [⟨"m1", some 0, some 10⟩, ⟨"m1", some 1, some 12⟩]).map Prod.fst) + 7] ∧
      List.Chain' (· < ·) (preds.map fun p => p.date) :=
  ⟨by decide,
   forecast_seven_consecutive_days [⟨"m1", some 0, some 10⟩, ⟨"m1", some 1, some 12⟩] "m1"
     (by decide)⟩

/-- C5. Every projection's confidence bounds are the (rounded) predicted
price minus resp. plus the population standard deviation of the
historical price values used for fitting — the same standard deviation
for all 7 projections — and consequently all 7 projections have exactly
the same band width even after rounding both bounds to 2 decimals. -/
theorem forecast_confidence_band (rows : List PriceRow) (mid : String)
    (h : 2 ≤ (validPoints mid rows).length) :
    ∃ hist preds, get_price_prediction rows mid = some (hist, preds) ∧
      (∀ p ∈ preds,
        p.confidence_low =
          round2R ((p.predicted_price : ℝ) - stdDev ((validPoints mid rows).map Prod.snd)) ∧
        p.confidence_high =
          round2R ((p.predicted_price : ℝ) + stdDev ((validPoints mid rows).map Prod.snd))) ∧
      (∀ p ∈ preds, ∀ q ∈ preds,
        p.confidence_high - p.confidence_low = q.confidence_high - q.confidence_low) := by
  have h' : 2 ≤ (coercePoints (rows.filter fun r => matchesMaterial mid r.material_id)).length := h
  have hlen1 : ¬ (rows.filter fun r => matchesMaterial mid r.material_id).length < 2 :=
    not_lt.mpr (le_trans h' (List.length_filterMap_le _ _))
  have hlen2 :
      ¬ (coercePoints (rows.filter fun r => matchesMaterial mid r.material_id)).length < 2 :=
    not_lt.mpr h'
  simp only [get_price_prediction, if_neg hlen1, if_neg hlen2]
  refine ⟨_, _, rfl, ?_, ?_⟩
  · intro p hp
    simp only [List.mem_map] at hp
    obtain ⟨i, hi, rfl⟩ := hp
    constructor
    · dsimp only
      simp [validPoints]
    · dsimp only
      simp [validPoints]
  · intro p hp q hq
    simp only [List.mem_map] at hp hq
    obtain ⟨i, hi, rfl⟩ := hp
    obtain ⟨j, hj, rfl⟩ := hq
    dsimp only
    simp only [round2]
    rw [round2R_width, round2R_width]

theorem forecast_confidence_band_witness :
    (2 ≤ (validPoints "m1" [⟨"m1", some 0, some 10⟩, ⟨"m1", some 1, some 12⟩]).length) ∧
    ∃ hist preds,
      get_price_prediction [⟨"m1", some 0, some 10⟩, ⟨"m1", some 1, some 12⟩] "m1" =
        some (hist, preds) ∧
      (∀ p ∈ preds,
        p.confidence_low = round2R ((p.predicted_price : ℝ) -
          stdDev ((validPoints "m1" [⟨"m1", some 0, some 10⟩, ⟨"m1", some 1, some 12⟩]).map Prod.snd)) ∧
        p.confidence_high = round2R ((p.predicted_price : ℝ) +
          stdDev ((validPoints "m1" [⟨"m1", some 0, some 10⟩, ⟨"m1", some 1, some 12⟩]).map Prod.snd))) ∧
      (∀ p ∈ preds, ∀ q ∈ preds,
        p.confidence_high - p.confidence_low = q.confidence_high - q.confidence_low) :=
  ⟨by decide,
   forecast_confidence_band [⟨"m1", some 0, some 10⟩, ⟨"m1", some 1, some 12⟩] "m1"
     (by decide)⟩

/-- The remove-while-iterating loop of `get_system_alerts` equals a
partition: provided the already-scanned prefix `c₀` of the live list
holds no due reminder, the loop emits exactly the due reminders of the
remaining copy `rest` and leaves `c₀` plus the non-due remainder. -/
theorem collectLoop_partition (today : ℤ) :
    ∀ (rest c₀ : List Reminder), (∀ x ∈ c₀, dueAt today x = false) →
      collectLoop today rest (c₀ ++ rest) =
        ((rest.filter (dueAt today)).map alertOf,
         c₀ ++ rest.filter fun r => !(dueAt today r)) := by
  intro rest
  induction rest with
  | nil =>
    intro c₀ h
    simp [collectLoop]
  | cons r rest ih =>
    intro c₀ h
    by_cases hr : dueAt today r = true
    · have hnotin : r ∉ c₀ := by
        intro hmem
        simp [h r hmem] at hr
      have herase : (c₀ ++ r :: rest).erase r = c₀ ++ rest := by
        rw [List.erase_append_right _ hnotin, List.erase_cons_head]
      simp only [collectLoop, hr, if_true, herase, ih c₀ h, List.filter_cons]
      simp [hr]
    · simp only [Bool.not_eq_true] at hr
      have hc' : ∀ x ∈ c₀ ++ [r], dueAt today x = false := by
        intro x hx
        rcases List.mem_append.mp hx with h' | h'
        · exact h x h'
        · rcases List.mem_singleton.mp h' with rfl
          exact hr
      have hstep : collectLoop today (r :: rest) (c₀ ++ r :: rest) =
          collectLoop today rest ((c₀ ++ [r]) ++ rest) := by
        rw [← List.append_cons]
        simp [collectLoop, hr]
      rw [hstep, ih (c₀ ++ [r]) hc']
      simp [List.filter_cons, hr]

/-- `get_system_alerts` emits exactly the due reminders (in order, as
alerts) and removes exactly those from the queue. -/
theorem get_system_alerts_partition (today : ℤ) (rems : List Reminder) :
    get_system_alerts today rems =
      ((rems.filter (dueAt today)).map alertOf, rems.filter fun r => !(dueAt today r)) := by
  have h := collectLoop_partition today rems [] (by simp)
  simpa [get_system_alerts] using h

/-- Conservation over a whole trace of queue operations: the emitted
alerts are the images of a list `em` of removed reminders, and the
initial queue plus everything enqueued is a permutation of the removed
reminders plus the final queue — so each reminder instance is emitted at
most as often as it was enqueued, i.e. at most once, ever. -/
theorem runQueue_conservation :
    ∀ (ops : List QueueOp) (s : List Reminder),
      ∃ em, (runQueue s ops).2 = em.map alertOf ∧
        (s ++ enqueuedOf ops).Perm (em ++ (runQueue s ops).1) := by
  intro ops
  induction ops with
  | nil =>
    intro s
    exact ⟨[], rfl, by simp [runQueue, enqueuedOf]⟩
  | cons op ops ih =>
    intro s
    cases op with
    | enq r =>
      obtain ⟨em, h1, h2⟩ := ih (s ++ [r])
      refine ⟨em, ?_, ?_⟩
      · simpa [runQueue] using h1
      · have heq : s ++ enqueuedOf (QueueOp.enq r :: ops) = (s ++ [r]) ++ enqueuedOf ops := by
          simp [enqueuedOf, List.filterMap_cons]
        rw [heq]
        simpa [runQueue] using h2
    | collect t =>
      obtain ⟨em, h1, h2⟩ := ih (s.filter fun r => !(dueAt t r))
      have hga := get_system_alerts_partition t s
      refine ⟨s.filter (dueAt t) ++ em, ?_, ?_⟩
      · simp [runQueue, hga, h1, List.map_append]
      · have hperm : s.Perm (s.filter (dueAt t) ++ s.filter fun r => !(dueAt t r)) :=
          (List.filter_append_perm _ s).symm
        have e1 : s ++ enqueuedOf (QueueOp.collect t :: ops) = s ++ enqueuedOf ops := by
          simp [enqueuedOf, List.filterMap_cons]
        have hrun : (runQueue s (QueueOp.collect t :: ops)).1 =
            (runQueue (s.filter fun r => !(dueAt t r)) ops).1 := by
          simp [runQueue, hga]
        rw [e1, hrun, List.append_assoc]
        exact (hperm.append_right _).trans
          (by rw [List.append_assoc]; exact List.Perm.append_left _ h2)

/-- C7. A poll of `get_system_alerts` with date `today` removes and emits
exactly the pending reminders with `reminder_date ≤ today`, and over any
sequence of enqueues and polls the emitted alerts are the images of a
list of removed reminders with (initial queue) ++ (enqueued reminders)
a permutation of (removed reminders) ++ (final queue): each reminder is
emitted at most once over the queue's lifetime, and once removed it is
never re-emitted by a later poll, even one with an earlier `today`. -/
theorem alerts_emitted_at_most_once (today : ℤ) (rems s : List Reminder)
    (ops : List QueueOp) :
    get_system_alerts today rems =
      ((rems.filter (dueAt today)).map alertOf, rems.filter fun r => !(dueAt today r)) ∧
    ∃ em, (runQueue s ops).2 = em.map alertOf ∧
      (s ++ enqueuedOf ops).Perm (em ++ (runQueue s ops).1) :=
  ⟨get_system_alerts_partition today rems, runQueue_conservation ops s⟩

end ProcureSmart
